import Mathlib

/-!
Shallow embedding of the real-time room broadcast engine of the zeepass
repository (internal/services/chat.go) and verification of the frozen
claims about it.

Modelling conventions:
- wall-clock instants and durations are Nat values counted in nanoseconds
  (matching Go's time.Time / time.Duration resolution);
- Go maps are modelled as association lists with first-binding lookup
  (alookup) and first-binding replacement (upsert);
- pointers to heap objects (rooms, clients) are modelled by keys into
  explicit heaps carried in the state, so that deleting a room id from the
  registry map does not destroy the room object, exactly as deleting a map
  entry in Go does not free the pointed-to struct;
- the Redis client is modelled by an explicit RedisState with a failing
  flag: when the flag is set every call returns an error, which models the
  durable tier erroring; redisClient == nil is modelled by Option.none;
- json.Marshal / json.Unmarshal on EncryptedMessage are modelled as the
  identity embedding (outbound queues carry EncryptedMessage values);
- effects of a call are made explicit parameters: the current time (now),
  and the freshly generated message id (newID) for a send.
-/

namespace Zeepass

/-- Association-list lookup returning the first binding of a key, modelling
Go map access. -/
def alookup {κ α : Type} [DecidableEq κ] : List (κ × α) → κ → Option α
  | [], _ => none
  | (k0, v) :: rest, k => if k0 = k then some v else alookup rest k

/-- Association-list update replacing the first binding of a key, or
appending a new binding, modelling Go map assignment. -/
def upsert {κ α : Type} [DecidableEq κ] : List (κ × α) → κ → α → List (κ × α)
  | [], k, v => [(k, v)]
  | (k0, v0) :: rest, k, v =>
    if k0 = k then (k, v) :: rest else (k0, v0) :: upsert rest k v

/-- Message envelope stored and fanned out by the service, mirroring the
EncryptedMessage struct (chat.go lines 50-60). Times are Nat nanoseconds. -/
structure EncryptedMessage where
  type : String
  room : String
  user : String
  encrypted : String
  iv : String
  timestamp : Nat
  messageID : String
  expiresAt : Nat
  size : Nat
deriving DecidableEq, Repr

/-- Static configuration, mirroring the MessageConfig struct and the
messageConfig package variable (chat.go lines 62-84). -/
structure MessageConfig where
  maxMessageSize : Nat
  messageExpiration : Nat
  rateLimit : Nat
  maxRoomMessages : Nat
deriving DecidableEq, Repr

/-- Nanoseconds in one minute. -/
def nsPerMinute : Nat := 60000000000

/-- Nanoseconds in one hour. -/
def nsPerHour : Nat := 3600000000000

/-- The concrete configuration from chat.go lines 79-84: 4096-byte max
payload, 24h message expiry, 30 messages per minute, 1000 stored messages
per room. -/
def messageConfig : MessageConfig :=
  { maxMessageSize := 4096
    messageExpiration := 24 * nsPerHour
    rateLimit := 30
    maxRoomMessages := 1000 }

/-- Go's local min helper on int (chat.go lines 621-626). -/
def goMin (a b : Nat) : Nat := if a < b then a else b

/-- Per-user token bucket state (chat.go lines 26-31). The mutex is a
concurrency artifact and is not part of the functional state. -/
structure RateLimiter where
  tokens : Nat
  capacity : Nat
  lastRefill : Nat
deriving DecidableEq, Repr

/-- RateLimiter.allow (chat.go lines 599-619): lazily refill
floor(elapsed minutes) tokens capped at capacity (updating lastRefill only
when at least one token accrued), then allow and decrement iff a token
remains. Nat subtraction truncates a clock that ran backwards to zero
elapsed time, which matches the Go code where a non-positive tokensToAdd
skips the refill. -/
def RateLimiter.allow (rl : RateLimiter) (now : Nat) : Bool × RateLimiter :=
  let elapsed := now - rl.lastRefill
  let tokensToAdd := elapsed / nsPerMinute
  let rl2 :=
    if 0 < tokensToAdd then
      { rl with tokens := goMin rl.capacity (rl.tokens + tokensToAdd), lastRefill := now }
    else rl
  if 0 < rl2.tokens then
    (true, { rl2 with tokens := rl2.tokens - 1 })
  else
    (false, rl2)

/-- The per-user limiter map of the service. -/
abbrev Limiters := List (String × RateLimiter)

/-- ChatService.checkRateLimit (chat.go lines 582-597): create a full
bucket lazily on first use, then delegate to allow and store the mutated
limiter back. -/
def checkRateLimit (ls : Limiters) (userID : String) (now : Nat) : Bool × Limiters :=
  let limiter :=
    match alookup ls userID with
    | some l => l
    | none =>
      { tokens := messageConfig.rateLimit
        capacity := messageConfig.rateLimit
        lastRefill := now }
  let r := limiter.allow now
  (r.1, upsert ls userID r.2)

/-! Redis model: a keyed blob store with per-key expiry plus per-room
sorted sets, with a failing flag modelling an unreachable server. -/

/-- One entry of a Redis sorted set: a score (the message's Unix-seconds
timestamp) and a member string (the message id). -/
structure ZEntry where
  score : Nat
  member : String
deriving DecidableEq, Repr

/-- One entry of the Redis key-value store: the stored message blob
(marshalling is modelled as the identity) and its absolute expiry time. -/
structure KVEntry where
  value : EncryptedMessage
  expireAt : Nat
deriving DecidableEq, Repr

/-- Functional state of the Redis server seen by the service. When failing
is set, every call returns an error, modelling an unreachable server. -/
structure RedisState where
  failing : Bool
  kv : List (String × KVEntry)
  zsets : List (String × List ZEntry)
  zsetExpireAt : List (String × Nat)
deriving DecidableEq, Repr

/-- Comparison used to keep sorted sets ordered: by score ascending, ties
broken by member string ascending, as Redis orders sorted-set members. -/
def zentryLe (a b : ZEntry) : Bool :=
  a.score < b.score || (a.score == b.score && !(compare b.member a.member == Ordering.lt))

/-- Ordered insertion into a sorted set kept ascending. -/
def zinsert (e : ZEntry) : List ZEntry → List ZEntry
  | [] => [e]
  | x :: xs => if zentryLe e x then e :: x :: xs else x :: zinsert e xs

/-- Redis ZADD: replace any existing binding of the member, then insert in
score order. -/
def zadd (l : List ZEntry) (score : Nat) (member : String) : List ZEntry :=
  zinsert ⟨score, member⟩ (l.filter (fun e => e.member != member))

/-- Redis ZREVRANGE key 0 (limit-1): the members of the highest-score
limit entries, newest first. -/
def zrevrange (l : List ZEntry) (limit : Nat) : List String :=
  (l.reverse.take limit).map ZEntry.member

/-- Redis ZREMRANGEBYRANK key 0 (-(maxN+1)): drop the lowest-score entries
beyond the newest maxN. -/
def ztrimToMax (l : List ZEntry) (maxN : Nat) : List ZEntry :=
  l.drop (l.length - maxN)

/-- Key of an individual message blob, msg:room:messageID
(chat.go line 511). -/
def msgKey (room messageID : String) : String :=
  "msg:" ++ room ++ ":" ++ messageID

/-- Key of a room's message index, room:roomID:messages
(chat.go line 523). -/
def roomKey (room : String) : String :=
  "room:" ++ room ++ ":messages"

/-- Unix seconds of a nanosecond instant, modelling time.Time.Unix(). -/
def tsUnix (t : Nat) : Nat := t / 1000000000

/-- Redis GET of a message blob: a key that is absent or past its expiry
behaves as missing (redis.Nil). -/
def redisGet (r : RedisState) (now : Nat) (key : String) : Option EncryptedMessage :=
  match alookup r.kv key with
  | none => none
  | some e => if now < e.expireAt then some e.value else none

/-- ChatService.storeMessageInRedis (chat.go lines 507-540): SET the blob
with the configured TTL, ZADD the id to the room index scored by the
message's Unix timestamp, refresh the index TTL, and trim the index to the
newest maxRoomMessages entries. Fails (with no state change) when the
server is unreachable. -/
def storeMessageInRedis (r : RedisState) (now : Nat) (m : EncryptedMessage) :
    Except Unit RedisState :=
  if r.failing then .error () else
  let key := msgKey m.room m.messageID
  let kv2 := upsert r.kv key ⟨m, now + messageConfig.messageExpiration⟩
  let rk := roomKey m.room
  let zl := (alookup r.zsets rk).getD []
  let zl2 := ztrimToMax (zadd zl (tsUnix m.timestamp) m.messageID) messageConfig.maxRoomMessages
  .ok { r with
        kv := kv2
        zsets := upsert r.zsets rk zl2
        zsetExpireAt := upsert r.zsetExpireAt rk (now + messageConfig.messageExpiration) }

/-- ChatService.getMessagesFromRedis (chat.go lines 542-579): ZREVRANGE the
newest limit ids from the room index (an expired index reads as empty),
GET each blob skipping expired or missing ones, and reverse the result to
chronological order. Fails when the server is unreachable. -/
def getMessagesFromRedis (r : RedisState) (now : Nat) (roomID : String) (limit : Nat) :
    Except Unit (List EncryptedMessage) :=
  if r.failing then .error () else
  let rk := roomKey roomID
  let zl :=
    match alookup r.zsetExpireAt rk with
    | some exp => if now < exp then (alookup r.zsets rk).getD [] else []
    | none => (alookup r.zsets rk).getD []
  let ids := zrevrange zl limit
  let msgs := ids.filterMap (fun mid => redisGet r now (msgKey roomID mid))
  .ok msgs.reverse

/-! Clients, rooms, and the service state. -/

/-- One websocket client (chat.go lines 42-48). The bound room is a key
into the room heap; the outbound Send channel of capacity 256 is modelled
by its queued frames plus a closed flag; closeCount counts how many times
close(client.Send) has run, to state the closed-exactly-once property. -/
structure Client where
  room : Option String
  userID : String
  userName : String
  send : List EncryptedMessage
  sendClosed : Bool
  closeCount : Nat
deriving DecidableEq, Repr

/-- Capacity of the client send channel (chat.go line 127). -/
def sendQueueCap : Nat := 256

/-- Non-blocking send on the client channel, modelling the select with a
default branch: the frame is enqueued iff the channel is open and has
room, and the Bool reports whether it was. -/
def Client.trySend (c : Client) (m : EncryptedMessage) : Client × Bool :=
  if c.sendClosed = false ∧ c.send.length < sendQueueCap then
    ({ c with send := c.send ++ [m] }, true)
  else
    (c, false)

/-- Closing the client send channel. -/
def Client.closeSend (c : Client) : Client :=
  { c with sendClosed := true, closeCount := c.closeCount + 1 }

/-- The heap of live client objects, keyed by an abstract address. -/
abbrev ClientHeap := List (Nat × Client)

/-- One chat room (chat.go lines 33-40): members are addresses of client
objects, history is the in-memory message buffer. -/
structure ChatRoom where
  id : String
  name : String
  clients : List Nat
  messages : List EncryptedMessage
  createdAt : Nat
deriving DecidableEq, Repr

/-- Error results of BroadcastMessage (chat.go lines 222-228). -/
inductive SendError where
  | rateLimited
  | tooLarge
deriving DecidableEq, Repr

/-- The parts of the service state BroadcastMessage touches besides the
room it is handed a pointer to. -/
structure SendEnv where
  clients : ClientHeap
  limiters : Limiters
  redis : Option RedisState
deriving DecidableEq, Repr

/-- Result of BroadcastMessage: the mutated room object, the mutated
environment, and the returned error if any. -/
structure SendOut where
  room : ChatRoom
  env : SendEnv
  err : Option SendError
deriving DecidableEq, Repr

/-- Stamping done by BroadcastMessage on success (chat.go lines 234-238):
assign the generated id, the arrival time, the expiry time, and the
payload size. -/
def stampMessage (m : EncryptedMessage) (now : Nat) (newID : String) : EncryptedMessage :=
  { m with
    messageID := newID
    timestamp := now
    expiresAt := now + messageConfig.messageExpiration
    size := m.encrypted.length }

/-- In-memory history trim (chat.go lines 251-254): keep only the newest
100 messages. -/
def trimHistory (l : List EncryptedMessage) : List EncryptedMessage :=
  if 100 < l.length then l.drop (l.length - 100) else l

/-- Fan-out loop of BroadcastMessage (chat.go lines 263-271): enqueue the
frame on each member's channel; a member whose channel is full is removed
from the member set and its channel is closed. Returns the updated client
heap and the surviving member list. -/
def fanOut (heap : ClientHeap) (members : List Nat) (m : EncryptedMessage) :
    ClientHeap × List Nat :=
  match members with
  | [] => (heap, [])
  | cid :: rest =>
    match alookup heap cid with
    | none =>
      let r := fanOut heap rest m
      (r.1, cid :: r.2)
    | some c =>
      match c.trySend m with
      | (c2, true) =>
        let r := fanOut (upsert heap cid c2) rest m
        (r.1, cid :: r.2)
      | (c2, false) =>
        fanOut (upsert heap cid c2.closeSend) rest m

/-- Best-effort notification loop (chat.go lines 334-339 and 354-359):
enqueue on each listed member's channel, silently dropping the frame when
the channel is full; nobody is removed. -/
def notifyAll (heap : ClientHeap) (members : List Nat) (m : EncryptedMessage) : ClientHeap :=
  match members with
  | [] => heap
  | cid :: rest =>
    match alookup heap cid with
    | none => notifyAll heap rest m
    | some c => notifyAll (upsert heap cid (c.trySend m).1) rest m

/-- ChatService.BroadcastMessage (chat.go lines 219-274): check the rate
limit (mutating the limiter map), then the payload size; on success stamp
the message, write it to Redis when a client is configured (a write error
is logged and ignored), append it to the in-memory history trimmed to 100,
and fan it out to every member. -/
def broadcastMessage (env : SendEnv) (room : ChatRoom) (m : EncryptedMessage)
    (userID : String) (now : Nat) (newID : String) : SendOut :=
  let res := checkRateLimit env.limiters userID now
  let env2 : SendEnv := { env with limiters := res.2 }
  if res.1 = false then
    ⟨room, env2, some SendError.rateLimited⟩
  else if messageConfig.maxMessageSize < m.encrypted.length then
    ⟨room, env2, some SendError.tooLarge⟩
  else
    let m2 := stampMessage m now newID
    let env3 : SendEnv :=
      match env2.redis with
      | none => env2
      | some r =>
        match storeMessageInRedis r now m2 with
        | .ok r2 => { env2 with redis := some r2 }
        | .error _ => env2
    let room2 := { room with messages := trimHistory (room.messages ++ [m2]) }
    let fo := fanOut env3.clients room2.clients m2
    ⟨{ room2 with clients := fo.2 }, { env3 with clients := fo.1 }, none⟩

/-- Whole-service state: the heap of room objects (pointer targets), the
registry of room ids currently in the cs.rooms map, the heap of client
objects, the limiter map, and the optional Redis client. Go's cs.rooms map
is the registry; deleting an id from it leaves the room object alive for
holders of its pointer, hence the heap/registry split. -/
structure CoreState where
  roomHeap : List (String × ChatRoom)
  registry : List String
  clientHeap : ClientHeap
  limiters : Limiters
  redis : Option RedisState
deriving DecidableEq, Repr

/-- ChatService.CreateRoom (chat.go lines 136-151): allocate a fresh room
object and register its id. -/
def createRoom (s : CoreState) (roomID roomName : String) (now : Nat) : CoreState :=
  let room : ChatRoom :=
    { id := roomID, name := roomName, clients := [], messages := [], createdAt := now }
  { s with
    roomHeap := upsert s.roomHeap roomID room
    registry := if roomID ∈ s.registry then s.registry else s.registry ++ [roomID] }

/-- The user_joined control frame built by broadcastUserJoined
(chat.go lines 323-330): only type, room, user and timestamp are set; the
remaining fields keep their zero values. Note the joining user's name is
not part of the frame. -/
def userJoinedMsg (roomID : String) (now : Nat) : EncryptedMessage :=
  ⟨"user_joined", roomID, "system", "", "", now, "", 0, 0⟩

/-- The user_left control frame built by broadcastUserLeft
(chat.go lines 343-350). -/
def userLeftMsg (roomID : String) (now : Nat) : EncryptedMessage :=
  ⟨"user_left", roomID, "system", "", "", now, "", 0, 0⟩

/-- ChatService.JoinRoom (chat.go lines 161-188): create the room if its
id is not registered, bind the client to it, add the client to the member
set, and broadcast the user_joined frame over the member set — which at
that point already contains the joining client. The recent-history replay
runs in its own goroutine and is modelled separately by
sendRecentMessagesClient. The match fallbacks for a dangling room or
client pointer are unreachable for states produced by the service. -/
def joinRoom (s : CoreState) (cid : Nat) (roomID userID userName : String) (now : Nat) :
    CoreState :=
  let s1 := if roomID ∈ s.registry then s else createRoom s roomID "Chat Room" now
  match alookup s1.roomHeap roomID with
  | none => s1
  | some room =>
    match alookup s1.clientHeap cid with
    | none => s1
    | some c =>
      let c2 := { c with room := some roomID, userID := userID, userName := userName }
      let heap1 := upsert s1.clientHeap cid c2
      let members :=
        if cid ∈ room.clients then room.clients else room.clients ++ [cid]
      let room2 := { room with clients := members }
      let heap2 := notifyAll heap1 members (userJoinedMsg roomID now)
      { s1 with roomHeap := upsert s1.roomHeap roomID room2, clientHeap := heap2 }

/-- ChatService.LeaveRoom (chat.go lines 191-217): a no-op for an unbound
client or one no longer in its room's member set; otherwise remove the
client, close its channel, broadcast user_left to the remaining members,
and unregister the room if it became empty (the room object itself stays
alive). Transport close reaches this same function through readPump's
deferred cleanup (chat.go lines 364-367). -/
def leaveRoom (s : CoreState) (cid : Nat) (now : Nat) : CoreState :=
  match alookup s.clientHeap cid with
  | none => s
  | some c =>
    match c.room with
    | none => s
    | some rid =>
      match alookup s.roomHeap rid with
      | none => s
      | some room =>
        if cid ∈ room.clients then
          let heap1 := upsert s.clientHeap cid c.closeSend
          let members := room.clients.filter (fun x => decide (x ≠ cid))
          let heap2 := notifyAll heap1 members (userLeftMsg rid now)
          let room2 := { room with clients := members }
          let s2 := { s with
            clientHeap := heap2
            roomHeap := upsert s.roomHeap rid room2 }
          if members.isEmpty then
            { s2 with registry := s2.registry.filter (fun x => decide (x ≠ rid)) }
          else s2
        else s

/-- BroadcastMessage invoked through the service state on a room pointer
(the inbound pump passes client.Room). The dangling-pointer fallback is
unreachable for states produced by the service. -/
def serviceBroadcast (s : CoreState) (rid : String) (m : EncryptedMessage)
    (userID : String) (now : Nat) (newID : String) : CoreState × Option SendError :=
  match alookup s.roomHeap rid with
  | none => (s, none)
  | some room =>
    let o := broadcastMessage ⟨s.clientHeap, s.limiters, s.redis⟩ room m userID now newID
    ({ s with
        roomHeap := upsert s.roomHeap rid o.room
        clientHeap := o.env.clients
        limiters := o.env.limiters
        redis := o.env.redis }, o.err)

/-- Nanoseconds in 24 hours, the idle-room age threshold
(chat.go line 477). -/
def dayNs : Nat := 24 * nsPerHour

/-- One pass of ChatService.cleanupRoutine (chat.go lines 468-487): delete
from the registry every room that is both empty and older than 24 hours.
The room objects themselves are untouched. -/
def cleanupSweep (s : CoreState) (now : Nat) : CoreState :=
  { s with
    registry := s.registry.filter (fun rid =>
      match alookup s.roomHeap rid with
      | none => true
      | some room => !(room.clients.isEmpty && decide (dayNs < now - room.createdAt))) }

/-! History replay for a newly joined member. -/

/-- The fixed limit of the history replay (chat.go lines 281 and 295-299). -/
def historyLimit : Nat := 50

/-- Message list computed by ChatService.sendRecentMessages
(chat.go lines 276-301) before the delivery loop: the Redis read limited
to 50 when a client is configured, falling back to the trailing 50
in-memory messages when Redis is absent, errors, or returns nothing. -/
def recentRaw (redis : Option RedisState) (room : ChatRoom) (now : Nat) :
    List EncryptedMessage :=
  let fromRedis : List EncryptedMessage :=
    match redis with
    | none => []
    | some r =>
      match getMessagesFromRedis r now room.id historyLimit with
      | .ok l => l
      | .error _ => []
  if fromRedis.length = 0 then
    let msgs := room.messages
    let start := if historyLimit < msgs.length then msgs.length - historyLimit else 0
    msgs.drop start
  else fromRedis

/-- The replay actually offered to the delivery loop: recentRaw with the
expired messages skipped (chat.go lines 303-306). -/
def recentList (redis : Option RedisState) (room : ChatRoom) (now : Nat) :
    List EncryptedMessage :=
  (recentRaw redis room now).filter (fun m => decide (now ≤ m.expiresAt))

/-- Delivery loop of sendRecentMessages (chat.go lines 303-319): enqueue
each frame on the new member's channel, stopping at the first frame the
channel cannot accept. -/
def deliverList : Client → List EncryptedMessage → Client
  | c, [] => c
  | c, m :: rest =>
    match c.trySend m with
    | (c2, true) => deliverList c2 rest
    | (c2, false) => c2

/-- Whole effect of the sendRecentMessages goroutine on the new member. -/
def sendRecentMessagesClient (redis : Option RedisState) (room : ChatRoom)
    (now : Nat) (c : Client) : Client :=
  deliverList c (recentList redis room now)

/-! Message-id generation. -/

/-- The 62-character alphabet of generateRandomString (chat.go line 498). -/
def charsetChars : List Char :=
  "abcdefghijklmnopqrstuvwxyzABCDEFGHIJKLMNOPQRSTUVWXYZ0123456789".data

/-- generateRandomString (chat.go lines 497-504): every character is the
alphabet entry indexed by the wall clock's UnixNano reading at that loop
iteration, modulo the alphabet size. The clock parameter gives the reading
observed at each iteration; there is no other source of entropy. -/
def generateRandomString (clock : Nat → Nat) (length : Nat) : String :=
  String.mk ((List.range length).map
    (fun i => charsetChars.getD (clock i % charsetChars.length) 'a'))

/-- generateMessageID (chat.go lines 489-491): the wall-clock time
formatted at second resolution, a dash, and a 6-character clock-indexed
suffix. -/
def generateMessageID (fmtNow : String) (clock : Nat → Nat) : String :=
  fmtNow ++ "-" ++ generateRandomString clock 6

/-! Small drivers used by the scenario theorems. -/

/-- Repeated checkRateLimit calls by one user at the given instants,
collecting the verdicts. -/
def runChecks : Limiters → String → List Nat → List Bool × Limiters
  | ls, _, [] => ([], ls)
  | ls, u, t :: ts =>
    let r := checkRateLimit ls u t
    let rest := runChecks r.2 u ts
    (r.1 :: rest.1, rest.2)

/-- Repeated storeMessageInRedis calls, ignoring errors as the caller
does. -/
def storeAll (r : RedisState) (now : Nat) : List EncryptedMessage → RedisState
  | [] => r
  | m :: ms =>
    match storeMessageInRedis r now m with
    | .ok r2 => storeAll r2 now ms
    | .error _ => storeAll r now ms

/-! Concrete inputs used by the scenario, counterexample, and witness
theorems. -/

/-- An empty, reachable Redis server. -/
def emptyRedis : RedisState := ⟨false, [], [], []⟩

/-- An empty room created at time 0. -/
def sampleRoom : ChatRoom := ⟨"r", "Chat Room", [], [], 0⟩

/-- A small data message as handed to BroadcastMessage by the inbound
pump: payload and iv set, id / expiry / size not yet stamped. -/
def sampleMsg : EncryptedMessage :=
  ⟨"message", "r", "u", "CIPHERTEXT", "IVBYTES", 0, "", 0, 0⟩

/-- A message whose payload is one byte over the configured maximum. -/
def oversizedMsg : EncryptedMessage :=
  ⟨"message", "r", "u", String.mk (List.replicate 4097 'a'), "iv", 0, "", 0, 0⟩

/-- A message whose payload is exactly the configured maximum. -/
def maxSizeMsg : EncryptedMessage :=
  ⟨"message", "r", "u", String.mk (List.replicate 4096 'a'), "iv", 0, "", 0, 0⟩

/-- The i-th stored message of the five-message room scenario. -/
def storedMsg (i : Nat) (mid : String) : EncryptedMessage :=
  ⟨"message", "r2", "u", "payload" ++ mid, "iv" ++ mid, i * 1000000000, mid,
   1000000000000000, 7⟩

/-- Redis after the five messages of room r2 were written through
storeMessageInRedis. -/
def storedFive : RedisState :=
  storeAll emptyRedis 6000000000
    [storedMsg 1 "m1", storedMsg 2 "m2", storedMsg 3 "m3", storedMsg 4 "m4",
     storedMsg 5 "m5"]

/-- A member already in room r1. -/
def aliceClient : Client := ⟨some "r1", "ua", "alice", [], false, 0⟩

/-- A freshly upgraded, still unbound client. -/
def freshClient : Client := ⟨none, "", "", [], false, 0⟩

/-- Service state with alice (address 1) in room r1 and a fresh client at
address 2 about to join. -/
def joinState : CoreState :=
  ⟨[("r1", ⟨"r1", "Chat Room", [1], [], 0⟩)], ["r1"],
   [(1, aliceClient), (2, freshClient)], [], none⟩

/-- A minimal frame used to fill queues. -/
def dummyMsg : EncryptedMessage := ⟨"message", "r", "x", "", "", 0, "", 0, 0⟩

/-- A member of room r whose outbound queue is completely full. -/
def stuckClient : Client :=
  ⟨some "r", "uf", "frank", List.replicate 256 dummyMsg, false, 0⟩

/-- Service state with only the stuck client in room r, room created at
time 0. -/
def fanOutState : CoreState :=
  ⟨[("r", ⟨"r", "Chat Room", [1], [], 0⟩)], ["r"], [(1, stuckClient)], [], none⟩

/-- State after a send into room r dropped the unresponsive member during
fan-out, emptying the room. -/
def fanOutAfter : CoreState := (serviceBroadcast fanOutState "r" dummyMsg "u" 100 "id1").1

/-- Service state with two members of room r, used by the leave
scenarios. -/
def leaveState : CoreState :=
  ⟨[("r", ⟨"r", "Chat Room", [1, 2], [], 0⟩)], ["r"],
   [(1, ⟨some "r", "ua", "alice", [], false, 0⟩),
    (2, ⟨some "r", "uc", "carol", [], false, 0⟩)], [], none⟩

/-- A send environment with an empty limiter map and a reachable, empty
Redis server. -/
def sendEnvWithRedis : SendEnv := ⟨[], [], some emptyRedis⟩

/-- Service state whose room r holds exactly one member, about to leave. -/
def soloLeaveState : CoreState :=
  ⟨[("r", ⟨"r", "Chat Room", [1], [], 0⟩)], ["r"],
   [(1, ⟨some "r", "ua", "alice", [], false, 0⟩)], [], none⟩

/-- Service state with an empty room q created at time 0. -/
def oldEmptyState : CoreState :=
  ⟨[("q", ⟨"q", "Chat Room", [], [], 0⟩)], ["q"], [], [], none⟩

/-! Helper lemmas about the association-list primitives and the model
operations. -/

theorem alookup_upsert_self {κ α : Type} [DecidableEq κ] (l : List (κ × α)) (k : κ) (v : α) :
    alookup (upsert l k v) k = some v := by
  induction l with
  | nil => simp [upsert, alookup]
  | cons hd tl ih =>
    by_cases h : hd.1 = k
    · simp [upsert, alookup, h]
    · simp [upsert, alookup, h, ih]

theorem alookup_upsert_ne {κ α : Type} [DecidableEq κ] (l : List (κ × α)) (k k' : κ) (v : α)
    (h : k' ≠ k) : alookup (upsert l k v) k' = alookup l k' := by
  have hne : ¬k = k' := fun he => h he.symm
  induction l with
  | nil => simp [upsert, alookup, hne]
  | cons hd tl ih =>
    by_cases hk : hd.1 = k
    · simp [upsert, alookup, hk, hne]
    · simp [upsert, alookup, hk, ih]

theorem alookup_notifyAll_not_mem (heap : ClientHeap) (members : List Nat)
    (m : EncryptedMessage) (cid : Nat) (h : cid ∉ members) :
    alookup (notifyAll heap members m) cid = alookup heap cid := by
  induction members generalizing heap with
  | nil => simp [notifyAll]
  | cons hd tl ih =>
    have hne : cid ≠ hd := fun he => h (he ▸ List.mem_cons_self hd tl)
    have htl : cid ∉ tl := fun ht => h (List.mem_cons_of_mem hd ht)
    cases hl : alookup heap hd with
    | none => simp [notifyAll, hl, ih _ htl]
    | some c =>
      simp [notifyAll, hl, ih _ htl, alookup_upsert_ne _ _ _ _ hne]

theorem not_mem_filter_ne_self {β : Type} [DecidableEq β] (b : β) (l : List β) :
    b ∉ l.filter (fun x => decide (x ≠ b)) := by
  intro h
  rcases List.mem_filter.mp h with ⟨-, hp⟩
  simp at hp

theorem goMin_le_left (a b : Nat) : goMin a b ≤ a := by
  unfold goMin
  split
  · omega
  · omega

theorem getLast?_drop_concat {α : Type} (l : List α) (x : α) (k : Nat)
    (h : k ≤ l.length) : ((l ++ [x]).drop k).getLast? = some x := by
  rw [List.drop_append_of_le_length h]
  exact List.getLast?_concat _

theorem getLast?_trimHistory_concat (l : List EncryptedMessage) (x : EncryptedMessage) :
    (trimHistory (l ++ [x])).getLast? = some x := by
  unfold trimHistory
  by_cases h : 100 < (l ++ [x]).length
  · rw [if_pos h]
    apply getLast?_drop_concat
    rw [List.length_append] at h ⊢
    simp only [List.length_cons, List.length_nil] at h ⊢
    omega
  · rw [if_neg h]
    exact List.getLast?_concat _

theorem getMessagesFromRedis_length_le (r : RedisState) (now : Nat) (roomID : String)
    (limit : Nat) (l : List EncryptedMessage)
    (h : getMessagesFromRedis r now roomID limit = .ok l) : l.length ≤ limit := by
  unfold getMessagesFromRedis at h
  by_cases hf : r.failing = true
  · rw [if_pos hf] at h
    exact absurd h (by simp)
  · rw [if_neg hf] at h
    cases h
    rw [List.length_reverse]
    calc (List.filterMap _ (zrevrange _ limit)).length
        ≤ (zrevrange _ limit).length := List.length_filterMap_le _ _
      _ ≤ limit := by
          unfold zrevrange
          rw [List.length_map]
          exact List.length_take_le _ _

theorem recentRaw_length_le (redis : Option RedisState) (room : ChatRoom) (now : Nat) :
    (recentRaw redis room now).length ≤ historyLimit := by
  have hfall : (room.messages.drop
      (if historyLimit < room.messages.length then room.messages.length - historyLimit
       else 0)).length ≤ historyLimit := by
    by_cases hlen : historyLimit < room.messages.length
    · rw [if_pos hlen, List.length_drop]
      omega
    · rw [if_neg hlen, List.length_drop]
      rw [Nat.not_lt] at hlen
      omega
  unfold recentRaw
  cases redis with
  | none => simpa using hfall
  | some r =>
    cases hg : getMessagesFromRedis r now room.id historyLimit with
    | error e => simpa [hg] using hfall
    | ok lst =>
      by_cases hl : lst.length = 0
      · simp only [hg]
        rw [if_pos hl]
        exact hfall
      · simp only [hg]
        rw [if_neg hl]
        exact getMessagesFromRedis_length_le _ _ _ _ _ hg

theorem recentList_length_le (redis : Option RedisState) (room : ChatRoom) (now : Nat) :
    (recentList redis room now).length ≤ historyLimit :=
  le_trans (List.length_filter_le _ _) (recentRaw_length_le redis room now)

theorem deliverList_length_le (c : Client) (l : List EncryptedMessage) :
    (deliverList c l).send.length ≤ c.send.length + l.length := by
  induction l generalizing c with
  | nil => simp [deliverList]
  | cons m rest ih =>
    unfold deliverList
    by_cases hp : (c.sendClosed = false ∧ c.send.length < sendQueueCap)
    · simp only [Client.trySend, if_pos hp]
      have hih := ih { c with send := c.send ++ [m] }
      simp only [List.length_append, List.length_cons, List.length_nil] at hih ⊢
      omega
    · simp only [Client.trySend, if_neg hp]
      simp only [List.length_cons]
      omega

/-! Claim theorems. -/

/-- Claim C3: the rate limiter is a lazily refilled token bucket — each
allow call tops the bucket up by floor of the elapsed minutes capped at
capacity, allows and decrements iff the topped-up bucket is non-empty, and
never exceeds capacity; concretely, with capacity 30, calls 1-30 of 31
calls within one second succeed, call 31 is denied, and a call after two
simulated minutes succeeds again. -/
theorem rate_limiter_token_bucket :
    (∀ (rl : RateLimiter) (now : Nat), rl.tokens ≤ rl.capacity →
      ((rl.allow now).1 =
          decide (0 < goMin rl.capacity (rl.tokens + (now - rl.lastRefill) / nsPerMinute)) ∧
        (rl.allow now).2.tokens =
          goMin rl.capacity (rl.tokens + (now - rl.lastRefill) / nsPerMinute) - 1 ∧
        (rl.allow now).2.tokens ≤ rl.capacity)) ∧
    (runChecks [] "u" (List.replicate 31 0)).1 = List.replicate 30 true ++ [false] ∧
    (checkRateLimit (runChecks [] "u" (List.replicate 31 0)).2 "u" (2 * nsPerMinute)).1 =
      true := by
  refine ⟨?_, by decide, by decide⟩
  intro rl now h
  have hmin := goMin_le_left rl.capacity (rl.tokens + (now - rl.lastRefill) / nsPerMinute)
  by_cases h1 : 0 < (now - rl.lastRefill) / nsPerMinute
  · by_cases h2 : 0 < goMin rl.capacity (rl.tokens + (now - rl.lastRefill) / nsPerMinute)
    · simp only [RateLimiter.allow, if_pos h1]
      rw [if_pos h2]
      refine ⟨by simp [h2], ?_, ?_⟩
      · show goMin rl.capacity (rl.tokens + (now - rl.lastRefill) / nsPerMinute) - 1 =
          goMin rl.capacity (rl.tokens + (now - rl.lastRefill) / nsPerMinute) - 1
        rfl
      · show goMin rl.capacity (rl.tokens + (now - rl.lastRefill) / nsPerMinute) - 1 ≤
          rl.capacity
        omega
    · simp only [RateLimiter.allow, if_pos h1]
      rw [if_neg h2]
      refine ⟨by simp [h2], ?_, ?_⟩
      · show goMin rl.capacity (rl.tokens + (now - rl.lastRefill) / nsPerMinute) =
          goMin rl.capacity (rl.tokens + (now - rl.lastRefill) / nsPerMinute) - 1
        omega
      · show goMin rl.capacity (rl.tokens + (now - rl.lastRefill) / nsPerMinute) ≤ rl.capacity
        omega
  · have hz : (now - rl.lastRefill) / nsPerMinute = 0 := Nat.eq_zero_of_not_pos h1
    have hgm : goMin rl.capacity (rl.tokens + (now - rl.lastRefill) / nsPerMinute) = rl.tokens := by
      rw [hz]
      unfold goMin
      split
      · omega
      · rfl
    by_cases h2 : 0 < rl.tokens
    · simp only [RateLimiter.allow, if_neg h1]
      rw [if_pos h2]
      refine ⟨by simp [hgm, h2], ?_, ?_⟩
      · show rl.tokens - 1 =
          goMin rl.capacity (rl.tokens + (now - rl.lastRefill) / nsPerMinute) - 1
        rw [hgm]
      · show rl.tokens - 1 ≤ rl.capacity
        omega
    · simp only [RateLimiter.allow, if_neg h1]
      rw [if_neg h2]
      refine ⟨by simp [hgm, h2], ?_, ?_⟩
      · show rl.tokens =
          goMin rl.capacity (rl.tokens + (now - rl.lastRefill) / nsPerMinute) - 1
        rw [hgm]
        omega
      · show rl.tokens ≤ rl.capacity
        omega

/-- Witness for C3: the general token-bucket characterization evaluated at
a bucket of 5 tokens, capacity 30, checked one minute after its last
refill. -/
theorem rate_limiter_token_bucket_witness :
    ((RateLimiter.allow ⟨5, 30, 0⟩ nsPerMinute).1 =
        decide (0 < goMin 30 (5 + (nsPerMinute - 0) / nsPerMinute)) ∧
      (RateLimiter.allow ⟨5, 30, 0⟩ nsPerMinute).2.tokens =
        goMin 30 (5 + (nsPerMinute - 0) / nsPerMinute) - 1 ∧
      (RateLimiter.allow ⟨5, 30, 0⟩ nsPerMinute).2.tokens ≤ 30) :=
  rate_limiter_token_bucket.1 ⟨5, 30, 0⟩ nsPerMinute (by decide)

/-- Claim C4: the durable-tier read returns the newest limit entries in
chronological order — after storing five messages in room r2, reading with
limit 3 yields exactly the three most recent in chronological order — and
with no durable tier the replay is the trailing 50 in-memory entries
filtered for non-expired. -/
theorem recent_messages_chronological :
    getMessagesFromRedis storedFive 6000000000 "r2" 3 =
      .ok [storedMsg 3 "m3", storedMsg 4 "m4", storedMsg 5 "m5"] ∧
    (∀ (room : ChatRoom) (now : Nat),
      recentList none room now =
        (room.messages.drop (room.messages.length - historyLimit)).filter
          (fun m => decide (now ≤ m.expiresAt))) := by
  refine ⟨rfl, ?_⟩
  intro room now
  unfold recentList recentRaw
  by_cases hlen : historyLimit < room.messages.length
  · simp [hlen]
  · simp [hlen, Nat.sub_eq_zero_of_le (Nat.not_lt.mp hlen)]

/-- Claim C7 (evaluating the code at the failing input): when bob joins
room r1 already containing alice, the user_joined frame is enqueued on
bob's own queue as well as alice's, because broadcastUserJoined runs over
the member set after bob was added. -/
theorem join_notifies_joining_client :
    (alookup (joinRoom joinState 2 "r1" "ub" "bob" 5).clientHeap 2).map Client.send =
      some [userJoinedMsg "r1" 5] ∧
    (alookup (joinRoom joinState 2 "r1" "ub" "bob" 5).clientHeap 1).map Client.send =
      some [userJoinedMsg "r1" 5] := by
  exact ⟨rfl, rfl⟩

/-- Claim C9 (counterexample): two generateMessageID calls whose loop
iterations observe the same UnixNano clock reading produce the very same
id — the suffix is fully determined by the clock, so same-tick calls
collide rather than stay distinct. -/
theorem same_tick_message_ids_collide :
    generateMessageID "20251011120000" (fun _ => 1760184000000000000) =
      generateMessageID "20251011120000" (fun _ => 1760184000000000000) ∧
    generateMessageID "20251011120000" (fun _ => 1760184000000000000) =
      "20251011120000-qqqqqq" := by
  exact ⟨rfl, by decide⟩

/-- Claim C9 (amended): the generated id is determined entirely by the
formatted wall-clock prefix and the six UnixNano readings of the suffix
loop; calls observing equal clock readings yield identical ids, so
distinctness relies solely on the clock advancing. -/
theorem message_id_determined_by_clock :
    ∀ (fmtNow : String) (c1 c2 : Nat → Nat),
      (∀ i, i < 6 → c1 i = c2 i) →
      generateMessageID fmtNow c1 = generateMessageID fmtNow c2 := by
  intro fmtNow c1 c2 h
  unfold generateMessageID generateRandomString
  have hmap : (List.range 6).map (fun i => charsetChars.getD (c1 i % charsetChars.length) 'a') =
      (List.range 6).map (fun i => charsetChars.getD (c2 i % charsetChars.length) 'a') :=
    List.map_congr_left (fun a ha => by rw [h a (List.mem_range.mp ha)])
  rw [hmap]

/-- Witness for the amended C9: two clocks that agree on the six observed
readings produce the same id. -/
theorem message_id_determined_by_clock_witness :
    generateMessageID "20251011" (fun _ => 0) =
      generateMessageID "20251011" (fun i => if i < 6 then 0 else 99) :=
  message_id_determined_by_clock "20251011" (fun _ => 0)
    (fun i => if i < 6 then 0 else 99) (fun i hi => by simp [hi])

/-- Claim C10: the history replay never exceeds 50 messages whichever tier
serves it — the computed replay list is at most 50 long, and the delivery
loop grows the new member's queue by at most 50 frames. -/
theorem history_replay_bounded :
    ∀ (redis : Option RedisState) (room : ChatRoom) (now : Nat) (c : Client),
      (recentList redis room now).length ≤ historyLimit ∧
      (sendRecentMessagesClient redis room now c).send.length ≤
        c.send.length + historyLimit := by
  intro redis room now c
  refine ⟨recentList_length_le _ _ _, ?_⟩
  unfold sendRecentMessagesClient
  calc (deliverList c (recentList redis room now)).send.length
      ≤ c.send.length + (recentList redis room now).length := deliverList_length_le _ _
    _ ≤ c.send.length + historyLimit :=
        Nat.add_le_add_left (recentList_length_le _ _ _) _

/-- Claim C1: a send whose rate-limit and size checks pass never fails
because the durable tier is absent or erroring — the result carries no
error, the stamped message is still appended to the room's in-memory
history, and the Redis state is left as it was. -/
theorem send_survives_durable_tier_failure :
    ∀ (env : SendEnv) (room : ChatRoom) (m : EncryptedMessage) (userID : String)
      (now : Nat) (newID : String),
      (checkRateLimit env.limiters userID now).1 = true →
      m.encrypted.length ≤ messageConfig.maxMessageSize →
      (env.redis = none ∨ ∃ r, env.redis = some r ∧ r.failing = true) →
      ((broadcastMessage env room m userID now newID).err = none ∧
       (broadcastMessage env room m userID now newID).room.messages =
         trimHistory (room.messages ++ [stampMessage m now newID]) ∧
       (broadcastMessage env room m userID now newID).env.redis = env.redis) := by
  intro env room m userID now newID hrate hsize hred
  have hns : ¬messageConfig.maxMessageSize < m.encrypted.length := Nat.not_lt.mpr hsize
  unfold broadcastMessage
  rcases hred with hnone | ⟨r, hr, hf⟩
  · simp [hrate, hns, hnone]
  · simp [hrate, hns, hr, storeMessageInRedis, hf]

/-- Witness for C1: a concrete send with no durable tier configured
succeeds and lands in the in-memory history. -/
theorem send_survives_durable_tier_failure_witness :
    (broadcastMessage ⟨[], [], none⟩ sampleRoom sampleMsg "u" 0 "id").err = none ∧
    (broadcastMessage ⟨[], [], none⟩ sampleRoom sampleMsg "u" 0 "id").room.messages =
      trimHistory (sampleRoom.messages ++ [stampMessage sampleMsg 0 "id"]) ∧
    (broadcastMessage ⟨[], [], none⟩ sampleRoom sampleMsg "u" 0 "id").env.redis = none :=
  send_survives_durable_tier_failure ⟨[], [], none⟩ sampleRoom sampleMsg "u" 0 "id"
    (by decide) (by decide) (Or.inl rfl)

/-- Claim C2 (counterexample): an oversized send is rejected, yet the
sender's rate-limiter state does change — the empty limiter map gains an
entry whose token count was decremented to 29 — because the rate limit is
checked and consumed before the size check. -/
theorem oversized_send_consumes_rate_token :
    (broadcastMessage ⟨[], [], none⟩ sampleRoom oversizedMsg "u" 7 "id").err =
      some SendError.tooLarge ∧
    (broadcastMessage ⟨[], [], none⟩ sampleRoom oversizedMsg "u" 7 "id").env.limiters =
      [("u", ⟨29, 30, 7⟩)] ∧
    ([("u", (⟨29, 30, 7⟩ : RateLimiter))] : Limiters) ≠ ([] : Limiters) := by
  have hck : checkRateLimit [] "u" 7 = (true, [("u", ⟨29, 30, 7⟩)]) := by decide
  have hlen : oversizedMsg.encrypted.length = 4097 := by
    show (List.replicate 4097 'a').length = 4097
    exact List.length_replicate 4097 'a'
  have hlt : messageConfig.maxMessageSize < oversizedMsg.encrypted.length := by
    rw [hlen]
    decide
  refine ⟨?_, ?_, by decide⟩
  · simp [broadcastMessage, hck, hlt]
  · simp [broadcastMessage, hck, hlt]

/-- Claim C2 (amended): a payload of exactly the configured maximum is
accepted when the sender is not rate limited; a payload one byte larger is
rejected with the payload-too-large error before the room's history,
membership, fan-out targets, or the durable tier are touched — but after
the rate limiter was consulted, so the limiter map carries the consumed
token of the rejected call. -/
theorem payload_boundary_rejection :
    ∀ (env : SendEnv) (room : ChatRoom) (m : EncryptedMessage) (userID : String)
      (now : Nat) (newID : String),
      ((checkRateLimit env.limiters userID now).1 = true →
        m.encrypted.length = messageConfig.maxMessageSize →
        (broadcastMessage env room m userID now newID).err = none) ∧
      ((checkRateLimit env.limiters userID now).1 = true →
        m.encrypted.length = messageConfig.maxMessageSize + 1 →
        broadcastMessage env room m userID now newID =
          ⟨room, { env with limiters := (checkRateLimit env.limiters userID now).2 },
           some SendError.tooLarge⟩) := by
  intro env room m userID now newID
  constructor
  · intro hrate hlen
    have hns : ¬messageConfig.maxMessageSize < m.encrypted.length := by omega
    simp [broadcastMessage, hrate, hns]
  · intro hrate hlen
    have hlt : messageConfig.maxMessageSize < m.encrypted.length := by omega
    simp [broadcastMessage, hrate, hlt]

/-- Witness for the amended C2: with a fresh limiter map, the 4096-byte
payload is accepted and the 4097-byte payload is rejected with only the
limiter map changed. -/
theorem payload_boundary_rejection_witness :
    (broadcastMessage ⟨[], [], none⟩ sampleRoom maxSizeMsg "u" 7 "id").err = none ∧
    broadcastMessage ⟨[], [], none⟩ sampleRoom oversizedMsg "u" 7 "id" =
      ⟨sampleRoom, { (⟨[], [], none⟩ : SendEnv) with
          limiters := (checkRateLimit [] "u" 7).2 }, some SendError.tooLarge⟩ :=
  ⟨(payload_boundary_rejection ⟨[], [], none⟩ sampleRoom maxSizeMsg "u" 7 "id").1
      (by decide)
      (by show (List.replicate 4096 'a').length = messageConfig.maxMessageSize
          rw [List.length_replicate]
          decide),
   (payload_boundary_rejection ⟨[], [], none⟩ sampleRoom oversizedMsg "u" 7 "id").2
      (by decide)
      (by show (List.replicate 4097 'a').length = messageConfig.maxMessageSize + 1
          rw [List.length_replicate]
          decide)⟩

/-- Claim C5: a send that succeeds stores the payload and the
initialization value byte-for-byte — the stamped message appended to the
history differs from the input only in its stamped fields — and in the
concrete round trip through the durable tier, recent returns the stored
message with payload and iv identical to what was sent. -/
theorem send_recent_round_trip :
    (∀ (env : SendEnv) (room : ChatRoom) (m : EncryptedMessage) (userID : String)
       (now : Nat) (newID : String),
      (broadcastMessage env room m userID now newID).err = none →
        ((broadcastMessage env room m userID now newID).room.messages.getLast? =
           some (stampMessage m now newID) ∧
         (stampMessage m now newID).encrypted = m.encrypted ∧
         (stampMessage m now newID).iv = m.iv)) ∧
    ((broadcastMessage sendEnvWithRedis sampleRoom sampleMsg "u" 1000000000 "id1").err =
       none ∧
     recentList
         (broadcastMessage sendEnvWithRedis sampleRoom sampleMsg "u" 1000000000 "id1").env.redis
         (broadcastMessage sendEnvWithRedis sampleRoom sampleMsg "u" 1000000000 "id1").room
         2000000000 =
       [stampMessage sampleMsg 1000000000 "id1"] ∧
     (stampMessage sampleMsg 1000000000 "id1").encrypted = sampleMsg.encrypted ∧
     (stampMessage sampleMsg 1000000000 "id1").iv = sampleMsg.iv) := by
  constructor
  · intro env room m userID now newID h
    by_cases h1 : (checkRateLimit env.limiters userID now).1 = false
    · exfalso
      unfold broadcastMessage at h
      rw [if_pos h1] at h
      exact Option.noConfusion h
    · by_cases h2 : messageConfig.maxMessageSize < m.encrypted.length
      · exfalso
        unfold broadcastMessage at h
        rw [if_neg h1, if_pos h2] at h
        exact Option.noConfusion h
      · unfold broadcastMessage
        rw [if_neg h1, if_neg h2]
        refine ⟨?_, rfl, rfl⟩
        exact getLast?_trimHistory_concat room.messages (stampMessage m now newID)
  · exact ⟨rfl, by decide, rfl, rfl⟩

/-- Witness for C5: the in-memory part of the round trip evaluated at a
concrete successful send. -/
theorem send_recent_round_trip_witness :
    (broadcastMessage ⟨[], [], none⟩ sampleRoom sampleMsg "u" 3 "idw").room.messages.getLast? =
      some (stampMessage sampleMsg 3 "idw") ∧
    (stampMessage sampleMsg 3 "idw").encrypted = sampleMsg.encrypted ∧
    (stampMessage sampleMsg 3 "idw").iv = sampleMsg.iv :=
  send_recent_round_trip.1 ⟨[], [], none⟩ sampleRoom sampleMsg "u" 3 "idw" (by decide)

/-- Helper for C6 and C8: LeaveRoom is a no-op on a client that is bound
to a room whose member set no longer contains it. -/
theorem leaveRoom_noop_of_not_member (s : CoreState) (cid n : Nat) (c : Client) (rid : String)
    (room : ChatRoom) (hc : alookup s.clientHeap cid = some c) (hr : c.room = some rid)
    (hroom : alookup s.roomHeap rid = some room) (hmem : cid ∉ room.clients) :
    leaveRoom s cid n = s := by
  simp [leaveRoom, hc, hr, hroom, hmem]

/-- Claim C6: Leave is idempotent — a second LeaveRoom on the same client
is a no-op, so two leaves equal one leave on every state, and in the
concrete two-member scenario the send queue of the leaving client is
closed exactly once. -/
theorem leave_room_idempotent :
    (∀ (s : CoreState) (cid n1 n2 : Nat),
      leaveRoom (leaveRoom s cid n1) cid n2 = leaveRoom s cid n1) ∧
    (alookup (leaveRoom (leaveRoom leaveState 1 10) 1 20).clientHeap 1).map
        Client.closeCount = some 1 := by
  refine ⟨?_, by decide⟩
  intro s cid n1 n2
  cases hc : alookup s.clientHeap cid with
  | none =>
    have h1 : leaveRoom s cid n1 = s := by simp [leaveRoom, hc]
    rw [h1]
    simp [leaveRoom, hc]
  | some c =>
    cases hr : c.room with
    | none =>
      have h1 : leaveRoom s cid n1 = s := by simp [leaveRoom, hc, hr]
      rw [h1]
      simp [leaveRoom, hc, hr]
    | some rid =>
      cases hroom : alookup s.roomHeap rid with
      | none =>
        have h1 : leaveRoom s cid n1 = s := by simp [leaveRoom, hc, hr, hroom]
        rw [h1]
        simp [leaveRoom, hc, hr, hroom]
      | some room =>
        by_cases hmem : cid ∈ room.clients
        · have hnm := not_mem_filter_ne_self cid room.clients
          have hch : (leaveRoom s cid n1).clientHeap =
              notifyAll (upsert s.clientHeap cid c.closeSend)
                (room.clients.filter (fun x => decide (x ≠ cid))) (userLeftMsg rid n1) := by
            simp only [leaveRoom, hc, hr, hroom, if_pos hmem]
            split
            · rfl
            · rfl
          have hrh : (leaveRoom s cid n1).roomHeap =
              upsert s.roomHeap rid
                { room with clients := room.clients.filter (fun x => decide (x ≠ cid)) } := by
            simp only [leaveRoom, hc, hr, hroom, if_pos hmem]
            split
            · rfl
            · rfl
          apply leaveRoom_noop_of_not_member _ _ _ c.closeSend rid
            { room with clients := room.clients.filter (fun x => decide (x ≠ cid)) }
          · rw [hch, alookup_notifyAll_not_mem _ _ _ _ hnm, alookup_upsert_self]
          · simp [Client.closeSend, hr]
          · rw [hrh, alookup_upsert_self]
          · exact hnm
        · have h1 : leaveRoom s cid n1 = s :=
            leaveRoom_noop_of_not_member s cid n1 c rid room hc hr hroom hmem
          rw [h1]
          exact leaveRoom_noop_of_not_member s cid n2 c rid room hc hr hroom hmem

set_option maxRecDepth 4000 in
/-- Claim C8 (counterexample): a send into a room whose only member has a
full queue succeeds, removes that member, and leaves the room empty — yet
the room stays in the registry, and even the idle sweep one full sweep
interval (30 minutes) later keeps it, because the sweep only deletes empty
rooms older than 24 hours. -/
theorem empty_room_survives_sweep :
    (serviceBroadcast fanOutState "r" dummyMsg "u" 100 "id1").2 = none ∧
    (alookup fanOutAfter.roomHeap "r").map ChatRoom.clients = some [] ∧
    fanOutAfter.registry = ["r"] ∧
    (cleanupSweep fanOutAfter 1800000000000).registry = ["r"] := by
  exact ⟨rfl, rfl, rfl, rfl⟩

/-- Claim C8 (amended): a room emptied by an explicit Leave (or the
transport-close path, which runs the same function) is evicted from the
registry immediately; a room that became empty any other way is evicted by
an idle sweep only once it is older than 24 hours. -/
theorem room_eviction_policy :
    (∀ (s : CoreState) (cid n : Nat) (c : Client) (rid : String) (room : ChatRoom),
      alookup s.clientHeap cid = some c →
      c.room = some rid →
      alookup s.roomHeap rid = some room →
      cid ∈ room.clients →
      room.clients.filter (fun x => decide (x ≠ cid)) = [] →
      rid ∉ (leaveRoom s cid n).registry) ∧
    (∀ (s : CoreState) (now : Nat) (rid : String) (room : ChatRoom),
      alookup s.roomHeap rid = some room →
      room.clients = [] →
      dayNs < now - room.createdAt →
      rid ∉ (cleanupSweep s now).registry) := by
  constructor
  · intro s cid n c rid room hc hr hroom hmem hempty
    simp only [leaveRoom, hc, hr, hroom, if_pos hmem, hempty]
    simp only [List.isEmpty_nil, if_true]
    exact not_mem_filter_ne_self rid _
  · intro s now rid room hroom hempty hold
    intro hmem
    rcases List.mem_filter.mp hmem with ⟨-, hp⟩
    rw [hroom] at hp
    simp [hempty, hold] at hp

/-- Witness for the amended C8: the last member leaving room r evicts it at
once, and an empty room q older than a day is removed by the sweep. -/
theorem room_eviction_policy_witness :
    "r" ∉ (leaveRoom soloLeaveState 1 10).registry ∧
    "q" ∉ (cleanupSweep oldEmptyState (dayNs + 1)).registry :=
  ⟨room_eviction_policy.1 soloLeaveState 1 10 ⟨some "r", "ua", "alice", [], false, 0⟩ "r"
      ⟨"r", "Chat Room", [1], [], 0⟩ rfl rfl rfl (by decide) (by decide),
   room_eviction_policy.2 oldEmptyState (dayNs + 1) "q" ⟨"q", "Chat Room", [], [], 0⟩
      rfl rfl (by decide)⟩

end Zeepass
